import Mathlib

/-!
Verification development for the SimpleInvoicePDF renderer
(source: src/unnamed/part_000, the TypeScript class SimpleInvoicePDF).

Shallow embedding conventions:
* JavaScript numbers are modelled as exact rationals.  All layout
  arithmetic in the source (margins, cursor positions, column widths) is
  ordinary numeric arithmetic, embedded over the rationals.
* A RegExp character-range pattern such as the default
  normal-font range (matching any character above U+00FF) is modelled as a
  predicate on characters; RegExp.test on a string holds iff some character
  of the string satisfies the predicate (rangeTest below).
* The external pdfkit backend is modelled by an oracle
  (oracle : Nat -> Rat) giving the document y position reported by the
  backend after the k-th text draw of the render, together with a docY
  field in the render storage.  Text draws are the only operations of the
  source that change the backend y position.
* The external transliteration library is the abstract parameter
  translit; the JavaScript Number.prototype.toString rendering used for
  non-price numeric cells is the abstract parameter numToString.
* The mutable this.storage of the class is the Storage structure,
  threaded explicitly.  Backend font registration performed for the
  fallback font is recorded by counting the calls in the
  fallbackRegisterCalls field.
* Fields of the source that cannot influence the cursor, the recorded
  heights, the font decision or the draw positions (fill colors, the
  header background and image, font file paths of the normal and bold
  fonts, font sizes and alignment of a draw) are omitted from the
  embedding; each omission is noted at the definition it concerns.
-/

namespace SimpleInvoicePDF

/-- One text draw issued to the backend: the drawn string (after
transliteration), the font selected for it, the (x, y) position, and the
maxWidth passed for line wrapping (part_000 lines 575-583). -/
structure DrawEvent where
  text : String
  font : String
  x : ℚ
  y : ℚ
  width : Option ℚ
  deriving Repr, DecidableEq, Inhabited

/-- Projection of a draw event to its (x, maxWidth) pair, the data the
column-layout claims are about. -/
def eventXW (e : DrawEvent) : ℚ × Option ℚ :=
  (e.x, e.width)

/-- FontOptions of the source (part_000 lines 244-248): display name and
the unsupported-character range pattern.  The range is optional in the
TypeScript interface; in the merged configuration the normal range is
always present (constructor default, line 347) and the bold range is never
read, so the range is modelled as a total predicate (for the bold font the
default is the never-matching predicate). The optional font file path only
feeds backend registration and is omitted. -/
structure FontOptions where
  name : String
  range : Char → Bool

/-- The fallback member of Fonts (part_000 lines 252-259). -/
structure FallbackOptions where
  name : String
  path : String
  enabled : Bool
  range : Char → Bool
  transliterate : Bool

/-- Fonts configuration (part_000 lines 250-260). -/
structure Fonts where
  normal : FontOptions
  bold : FontOptions
  fallback : FallbackOptions

/-- style.document of the options (part_000 lines 296-300). -/
structure DocumentStyle where
  marginLeft : ℚ
  marginRight : ℚ
  marginTop : ℚ

/-- style.header (part_000 lines 235-242); the colors and the optional
image only feed backend fill and image calls and are omitted. -/
structure HeaderStyle where
  height : ℚ
  textPosition : ℚ

/-- One column configuration of style.table (part_000 lines 263-270). -/
structure ColumnStyle where
  position : ℚ
  maxWidth : ℚ

/-- style.table (part_000 lines 262-271). -/
structure TableStyle where
  quantity : ColumnStyle
  total : ColumnStyle

/-- style.text (part_000 lines 273-278); the two colors only feed
backend fillColor calls and are omitted. -/
structure TextStyle where
  headingSize : ℚ
  regularSize : ℚ

/-- The merged style configuration (part_000 lines 294-305). -/
structure Style where
  document : DocumentStyle
  fonts : Fonts
  header : HeaderStyle
  table : TableStyle
  text : TextStyle

/-- A JavaScript string-or-number value, as appears in cells, totals and
header lines of the invoice data. -/
inductive JsValue where
  | str (s : String)
  | num (q : ℚ)
  deriving Repr, DecidableEq

/-- this.storage of the class (part_000 lines 314-334, 431-451),
plus the two observables of the external backend document: docY (the
backend y position, source getDocument().y) and k (how many text draws
have been issued, indexing the oracle).  events is the trace of text
draws; fallbackRegisterCalls counts backend registerFont calls made for
the fallback font. -/
structure Storage where
  cursorX : ℚ
  cursorY : ℚ
  customerHeight : ℚ
  sellerHeight : ℚ
  fallbackLoaded : Bool
  fallbackRegisterCalls : Nat
  docY : ℚ
  k : Nat
  events : List DrawEvent

/-- setCursor("x", v) (part_000 lines 527-529). -/
def setCursorX (v : ℚ) (st : Storage) : Storage :=
  { st with cursorX := v }

/-- setCursor("y", v) (part_000 lines 527-529). -/
def setCursorY (v : ℚ) (st : Storage) : Storage :=
  { st with cursorY := v }

/-- RegExp.test of a character-range pattern: some character of the string
matches the range predicate.  The source tests value || "", and the empty
string never matches, which agrees with List.any on the empty character
list. -/
def rangeTest (r : Char → Bool) (s : String) : Bool :=
  s.data.any r

/-- The font-table lookup this.options.style.fonts[type].name for a
weight key; getFontOrFallback only performs it after coercing the key to
"normal" or "bold" (part_000 lines 471-473), so the lookup is total. -/
def fontNameByKey (fonts : Fonts) (type : Option String) : String :=
  if type = some "bold" then fonts.bold.name else fonts.normal.name

/-- getFontOrFallback (part_000 lines 467-500).  The weight is an Option
String: none models a JavaScript undefined argument.  Returns the selected
font name, the updated fallback-loaded flag, and how many registerFont
calls for the fallback font were issued (0 or 1). -/
def getFontOrFallback (fonts : Fonts) (loaded : Bool) (type : Option String)
    (value : String) : String × Bool × Nat :=
  let type1 := if type ≠ some "normal" ∧ type ≠ some "bold" then some "normal" else type
  if !fonts.fallback.enabled then
    (fontNameByKey fonts type1, loaded, 0)
  else if !rangeTest fonts.normal.range value then
    (fontNameByKey fonts type1, loaded, 0)
  else if rangeTest fonts.fallback.range value then
    (fontNameByKey fonts type1, loaded, 0)
  else if !loaded then
    (fonts.fallback.name, true, 1)
  else
    (fonts.fallback.name, loaded, 0)

/-- valueOrTransliterate (part_000 lines 502-516); translit is the
external transliteration library. -/
def valueOrTransliterate (fonts : Fonts) (translit : String → String)
    (value : String) : String :=
  if !fonts.fallback.enabled then value
  else if !rangeTest fonts.fallback.range value then value
  else translit value

/-- Number.prototype.toFixed(2), for a number modelled as an exact
rational: the value is scaled by 100 and rounded to the nearest integer
(ties toward positive infinity, as in the ECMAScript toFixed
specification, which picks the larger candidate on a tie), then printed
with two digits after the decimal point. -/
def toFixed2 (q : ℚ) : String :=
  let n : ℤ := round (q * 100)
  let sign := if n < 0 then "-" else ""
  let m := n.natAbs
  sign ++ toString (m / 100) ++ "." ++ toString (m / 10 % 10) ++ toString (m % 10)

/-- prettyPrice (part_000 lines 531-541).  currency models
this.options.data.invoice.currency, none being an absent field; the
source guards the suffix with a JavaScript truthiness test, under which
the empty string also suppresses the suffix. -/
def prettyPrice (currency : Option String) (value : JsValue) : String :=
  let s := match value with
    | .num q => toFixed2 q
    | .str t => t
  match currency with
  | some c => if c = "" then s else s ++ " " ++ c
  | none => s

/-- Options of setText (part_000 lines 543-553) that can influence the
storage or the draw trace.  fontWeight is Option String so that an absent
property (JavaScript undefined, replaced by "normal" through the
destructuring default of the source) is representable.  colorCode,
fontSize, align and color only feed backend fillColor, fontSize and
drawing calls and are omitted. -/
structure TextOpts where
  fontWeight : Option String := none
  marginTop : ℚ := 0
  maxWidth : Option ℚ := none
  skipDown : Bool := false

/-- setText (part_000 lines 543-597): advance cursor.y by marginTop,
resolve the font (threading the fallback-loaded flag and counting
fallback registrations), transliterate, draw at the cursor (the backend
then reports its new y position, oracle st.k), set cursor.y to the
reported y, and under skipDown subtract the measured positive delta back
off, or the fixed single-line constant 11.5 when the delta is not
positive. -/
def setText (style : Style) (translit : String → String) (oracle : Nat → ℚ)
    (text : String) (opts : TextOpts) (st : Storage) : Storage :=
  let y0 := st.cursorY + opts.marginTop
  let fontWeight := opts.fontWeight.getD "normal"
  let fr := getFontOrFallback style.fonts st.fallbackLoaded (some fontWeight) text
  let drawn := valueOrTransliterate style.fonts translit text
  let newDocY := oracle st.k
  let diff := newDocY - y0
  let y1 := if opts.skipDown then
      (if diff > 0 then newDocY - diff else newDocY - (11.5 : ℚ))
    else newDocY
  { st with
    cursorY := y1
    docY := newDocY
    k := st.k + 1
    events := st.events ++ [⟨drawn, fr.1, st.cursorX, y0, opts.maxWidth⟩]
    fallbackLoaded := fr.2.1
    fallbackRegisterCalls := st.fallbackRegisterCalls + fr.2.2 }

/-- One table cell (part_000 lines 707-708): a display value plus the
optional price flag (absent modelled as false, as the source only
compares it with === true). -/
structure Cell where
  value : JsValue
  price : Bool
  deriving Repr, DecidableEq

/-- The string drawn for a cell (part_000 lines 748-754): prettyPrice
when the price flag is set, otherwise the JavaScript toString of the
value, where numToString is the abstract Number.prototype.toString. -/
def cellText (currency : Option String) (numToString : ℚ → String) (c : Cell) : String :=
  if c.price then prettyPrice currency c.value
  else match c.value with
    | .str s => s
    | .num q => numToString q

/-- The row kind argument of generateTableRow (part_000 line 707). -/
inductive RowType where
  | header
  | row
  deriving Repr, DecidableEq

/-- The mutable locals of the generateTableRow column loop (part_000
lines 722-731): the running left position start, the current column
width maxWidth, the running maximum reported y maxY, together with the
render storage. -/
structure RowAcc where
  st : Storage
  start : ℚ
  mW : ℚ
  maxY : ℚ

/-- One iteration of the generateTableRow forEach (part_000 lines
733-767) at global column index i of n columns: choose the cell x
position and width (the shared-width branch for index < n - 2, the
quantity column at index n - 2, the total column last; comparisons are
over the integers, as the JavaScript length - 2 may be negative), draw
the cell with skipDown, advance start by width + 10, and raise maxY to
the backend reported y if it increased. -/
def rowCell (style : Style) (translit : String → String)
    (numToString : ℚ → String) (oracle : Nat → ℚ) (currency : Option String)
    (fontWeight : String) (n : Nat) (c : Cell) (i : Nat) (acc : RowAcc) : RowAcc :=
  let acc1 :=
    if (i : ℤ) < (n : ℤ) - 2 then
      { acc with st := setCursorX acc.start acc.st }
    else if (i : ℤ) = (n : ℤ) - 2 then
      { acc with mW := style.table.quantity.maxWidth,
                 st := setCursorX style.table.quantity.position acc.st }
    else
      { acc with mW := style.table.total.maxWidth,
                 st := setCursorX style.table.total.position acc.st }
  let st2 := setText style translit oracle (cellText currency numToString c)
    { fontWeight := some fontWeight, maxWidth := some acc1.mW, skipDown := true } acc1.st
  { st := st2
    start := acc1.start + acc1.mW + 10
    mW := acc1.mW
    maxY := if st2.docY ≥ acc.maxY then st2.docY else acc.maxY }

/-- The columns.forEach loop of generateTableRow, as structural recursion
over the remaining columns with the running global index. -/
def rowLoop (style : Style) (translit : String → String)
    (numToString : ℚ → String) (oracle : Nat → ℚ) (currency : Option String)
    (fontWeight : String) (n : Nat) :
    List Cell → Nat → RowAcc → RowAcc
  | [], _, acc => acc
  | c :: rest, i, acc =>
      rowLoop style translit numToString oracle currency fontWeight n rest (i + 1)
        (rowCell style translit numToString oracle currency fontWeight n c i acc)

/-- generateTableRow up to and including the final setCursor("y", maxY)
(part_000 lines 706-770): overwrite cursor.y with the backend document y,
advance it by 17, pick the weight by row kind, compute the shared column
width from the header text position and the margins (the division is over
the rationals; for a 2-column row the divisor is zero and the totalized
rational division yields an unused placeholder where JavaScript yields
Infinity — the c3 theorems prove the value is never drawn), run the
column loop from the left margin, and set cursor.y to the maximum
reported y.  The source continues with the header separator line, split
into generateTableRow below so that the state at the setCursor("y", maxY)
point (the state the row-height claims are about) is addressable. -/
def generateTableRowCells (style : Style) (translit : String → String)
    (numToString : ℚ → String) (oracle : Nat → ℚ) (currency : Option String)
    (type : RowType) (columns : List Cell) (st0 : Storage) : Storage :=
  let fontWeight := if type = RowType.header then "bold" else "normal"
  let stA := setCursorY st0.docY st0
  let stB := setCursorY (stA.cursorY + 17) stA
  let start := style.document.marginLeft
  let maxY := stB.cursorY
  let mW := (style.header.textPosition - start - style.document.marginRight) /
    ((columns.length : ℚ) - 2)
  let fin := rowLoop style translit numToString oracle currency fontWeight
    columns.length columns 0 ⟨stB, start, mW, maxY⟩
  setCursorY fin.maxY fin.st

/-- generateLine (part_000 lines 783-795): advance cursor.y by the
regular text size plus 2 and stroke the separator; the stroke does not
change the backend document y and issues no text draw. -/
def generateLine (style : Style) (st : Storage) : Storage :=
  setCursorY (st.cursorY + style.text.regularSize + 2) st

/-- generateTableRow (part_000 lines 706-775): the cell phase followed,
for header rows, by the separator line. -/
def generateTableRow (style : Style) (translit : String → String)
    (numToString : ℚ → String) (oracle : Nat → ℚ) (currency : Option String)
    (type : RowType) (columns : List Cell) (st0 : Storage) : Storage :=
  let st1 := generateTableRowCells style translit numToString oracle currency
    type columns st0
  if type = RowType.header then generateLine style st1 else st1

/-- The value of a customer or seller detail line (part_000 lines
678-684): a single string or an array of strings; toList mirrors the
Array.isArray normalization of the source. -/
inductive DetailValue where
  | one (s : String)
  | many (vs : List String)
  deriving Repr, DecidableEq

/-- The Array.isArray(value) ? value : [value] normalization. -/
def DetailValue.toList : DetailValue → List String
  | .one s => [s]
  | .many vs => vs

/-- One customer or seller line (part_000 lines 283-284). -/
structure DetailLine where
  label : String
  value : DetailValue

/-- The side being rendered by generateDetails (part_000 line 657). -/
inductive DetailsType where
  | customer
  | seller
  deriving Repr, DecidableEq

/-- The body of the lines.forEach of generateDetails (part_000 lines
670-693): the bold label draw (marginTop 8) followed by one secondary
draw per value (marginTop 4, the fontMargin of the source), all with
maxWidth 250 (the maxWidth local of the source). -/
def detailsLine (style : Style) (translit : String → String)
    (oracle : Nat → ℚ) (st : Storage) (line : DetailLine) : Storage :=
  let maxWidth : ℚ := 250
  let fontMargin : ℚ := 4
  let stl := setText style translit oracle (line.label ++ ":")
    { fontWeight := some "bold", marginTop := 8, maxWidth := some maxWidth } st
  line.value.toList.foldl (fun st v =>
    setText style translit oracle v
      { marginTop := fontMargin, maxWidth := some maxWidth } st) stl

/-- generateDetails (part_000 lines 657-696): reset cursor.y to
header.height + 18, set cursor.x to the left margin for the customer or
the header text position for the seller, draw each line, and record the
resulting cursor.y as the height of that side. -/
def generateDetails (style : Style) (translit : String → String)
    (oracle : Nat → ℚ) (type : DetailsType) (lines : List DetailLine)
    (st0 : Storage) : Storage :=
  let st1 := setCursorY (style.header.height + 18) st0
  let st2 := if type = DetailsType.customer then
      setCursorX style.document.marginLeft st1
    else
      setCursorX style.header.textPosition st1
  let st3 := lines.foldl (detailsLine style translit oracle) st2
  match type with
  | DetailsType.customer => { st3 with customerHeight := st3.cursorY }
  | DetailsType.seller => { st3 with sellerHeight := st3.cursorY }

/-- One line of details.total (part_000 line 289). -/
structure TotalLine where
  label : String
  value : JsValue
  price : Bool

/-- The opening statements of generateParts (part_000 lines 804-812):
the table section starting position, Math.max of the two recorded
section heights, written into cursor.y. -/
def generatePartsStart (st : Storage) : Storage :=
  let startY := max st.customerHeight st.sellerHeight
  setCursorY startY st

/-- generateParts (part_000 lines 803-850): position the cursor at the
table start, draw a newline text, the header row, every item row, advance
cursor.y by 50, then each total as a bold skipDown label at the quantity
column and its (possibly price-formatted) value at the total column. -/
def generateParts (style : Style) (translit : String → String)
    (numToString : ℚ → String) (oracle : Nat → ℚ) (currency : Option String)
    (detailsHeader : List Cell) (parts : List (List Cell))
    (totals : List TotalLine) (st0 : Storage) : Storage :=
  let st1 := generatePartsStart st0
  let st2 := setText style translit oracle "\n" {} st1
  let st3 := generateTableRow style translit numToString oracle currency
    RowType.header detailsHeader st2
  let st4 := parts.foldl (fun st part =>
    generateTableRow style translit numToString oracle currency
      RowType.row part st) st3
  let st5 := setCursorY (st4.cursorY + 50) st4
  totals.foldl (fun st t =>
    let stA := setCursorX style.table.quantity.position st
    let stB := setText style translit oracle t.label
      { fontWeight := some "bold", marginTop := 12,
        maxWidth := some style.table.quantity.maxWidth, skipDown := true } stA
    let stC := setCursorX style.table.total.position stB
    let text := if t.price then prettyPrice currency t.value
      else match t.value with
        | .str s => s
        | .num q => numToString q
    setText style translit oracle text
      { maxWidth := some style.table.total.maxWidth } stC) st5

/-- A sequence of text draws, the shape in which every section issues its
cells and lines: each draw is a text with its options, folded through
setText.  Used to state the once-only fallback registration claim across
the draws of a document lifetime. -/
def runTextDraws (style : Style) (translit : String → String)
    (oracle : Nat → ℚ) (draws : List (String × TextOpts)) (st : Storage) : Storage :=
  draws.foldl (fun s td => setText style translit oracle td.1 td.2 s) st

/-- The built-in default configuration of the constructor (part_000 lines
337-427), restricted to the modelled fields.  The default normal range
pattern matches any character above U+00FF and the default fallback range
pattern any character above U+0500. -/
def defaultStyle : Style where
  document := { marginLeft := 30, marginRight := 30, marginTop := 30 }
  fonts := {
    normal := { name := "Helvetica", range := fun c => decide (0xFF < c.toNat) }
    bold := { name := "Helvetica-Bold", range := fun _ => false }
    fallback := {
      name := "Noto Sans"
      path := "../res/fonts/NotoSans-Regular.ttf"
      enabled := true
      range := fun c => decide (0x500 < c.toNat)
      transliterate := true } }
  header := { height := 150, textPosition := 330 }
  table := { quantity := { position := 330, maxWidth := 140 },
             total := { position := 490, maxWidth := 80 } }
  text := { headingSize := 15, regularSize := 10 }

/-- The storage as initialized by the constructor (part_000 lines
431-451), with the backend observables at their document-start values. -/
def initialStorage : Storage where
  cursorX := 0
  cursorY := 0
  customerHeight := 0
  sellerHeight := 0
  fallbackLoaded := false
  fallbackRegisterCalls := 0
  docY := 0
  k := 0
  events := []

/-- The shared column width of a row of n columns,
(headerTextPosition - marginLeft - marginRight) / (n - 2): the width
generateTableRowCells computes before its column loop (part_000 lines
727-731). -/
def sharedWidth (style : Style) (n : Nat) : ℚ :=
  (style.header.textPosition - style.document.marginLeft -
    style.document.marginRight) / ((n : ℚ) - 2)

/-- Modelled from the spec (section 4.4 of spec.md): the closed-form
column layout the specification describes for a row of n columns —
column i of the first n - 2 columns at
marginLeft + i * (sharedWidth + 10) with the shared width
(headerTextPosition - marginLeft - marginRight) / (n - 2), the
second-to-last column at the quantity position and width, the last at
the total position and width.  Stated for comparison with the layout the
source code produces. -/
def specColumnXW (style : Style) (n : Nat) (i : Nat) : ℚ × ℚ :=
  if (i : ℤ) < (n : ℤ) - 2 then
    (style.document.marginLeft + (i : ℚ) * (sharedWidth style n + 10), sharedWidth style n)
  else if (i : ℤ) = (n : ℤ) - 2 then
    (style.table.quantity.position, style.table.quantity.maxWidth)
  else
    (style.table.total.position, style.table.total.maxWidth)

/-- The running-maximum fold of the column loop: the maxY local after
folding the reported y of each cell through the comparison of part_000
lines 764-766. -/
def maxFold (a : ℚ) (l : List ℚ) : ℚ :=
  l.foldl (fun m y => if y ≥ m then y else m) a

/-! ## Helper lemmas: font resolution -/

/-- Each getFontOrFallback call either leaves the fallback-loaded flag and
the registration count unchanged, or performs the single false-to-true
transition together with exactly one registration call. -/
lemma getFontOrFallback_step (fonts : Fonts) (loaded : Bool)
    (type : Option String) (value : String) :
    ((getFontOrFallback fonts loaded type value).2.1 = loaded ∧
      (getFontOrFallback fonts loaded type value).2.2 = 0) ∨
    (loaded = false ∧ (getFontOrFallback fonts loaded type value).2.1 = true ∧
      (getFontOrFallback fonts loaded type value).2.2 = 1) := by
  cases loaded <;> simp [getFontOrFallback] <;> split_ifs <;> simp

/-- setText either leaves the fallback registration state unchanged or
performs the single false-to-true flag transition with exactly one more
registration call. -/
lemma setText_fallback_step (style : Style) (translit : String → String)
    (oracle : Nat → ℚ) (text : String) (opts : TextOpts) (st : Storage) :
    ((setText style translit oracle text opts st).fallbackRegisterCalls =
        st.fallbackRegisterCalls ∧
      (setText style translit oracle text opts st).fallbackLoaded =
        st.fallbackLoaded) ∨
    (st.fallbackLoaded = false ∧
      (setText style translit oracle text opts st).fallbackLoaded = true ∧
      (setText style translit oracle text opts st).fallbackRegisterCalls =
        st.fallbackRegisterCalls + 1) := by
  have h := getFontOrFallback_step style.fonts st.fallbackLoaded
    (some (opts.fontWeight.getD "normal")) text
  rcases h with ⟨h1, h2⟩ | ⟨h1, h2, h3⟩
  · left
    simp [setText, h1, h2]
  · right
    rw [h1] at h2 h3
    simp [setText, h1, h2, h3]

/-- Unfolding of runTextDraws on a first draw. -/
lemma runTextDraws_cons (style : Style) (translit : String → String)
    (oracle : Nat → ℚ) (d : String × TextOpts) (ds : List (String × TextOpts))
    (st : Storage) :
    runTextDraws style translit oracle (d :: ds) st =
      runTextDraws style translit oracle ds (setText style translit oracle d.1 d.2 st) := by
  simp [runTextDraws]

/-! ## Claim C1 -/

/-- Claim C1: for weight normal or bold, getFontOrFallback returns the
fallback font name exactly when fallback is enabled, the text matches the
unsupported-range pattern of the normal font, and no character matches the
unsupported-range pattern of the fallback font; in every other case it returns
the configured name for the weight.  In particular (second conjunct with
the failing normal-range test) a text inside the supported
range never selects the fallback entry. -/
theorem c1_font_fallback_cases (fonts : Fonts) (loaded : Bool)
    (w : Option String) (text : String)
    (hw : w = some "normal" ∨ w = some "bold") :
    ((fonts.fallback.enabled = true ∧ rangeTest fonts.normal.range text = true ∧
        rangeTest fonts.fallback.range text = false) →
      (getFontOrFallback fonts loaded w text).1 = fonts.fallback.name) ∧
    (¬(fonts.fallback.enabled = true ∧ rangeTest fonts.normal.range text = true ∧
        rangeTest fonts.fallback.range text = false) →
      (getFontOrFallback fonts loaded w text).1 =
        (if w = some "bold" then fonts.bold.name else fonts.normal.name)) := by
  rcases hw with h | h <;> subst h <;> constructor
  · rintro ⟨he, hn, hf⟩
    cases loaded <;> simp [getFontOrFallback, he, hn, hf]
  · intro hnot
    by_cases he : fonts.fallback.enabled
    · by_cases hn : rangeTest fonts.normal.range text
      · have hf : rangeTest fonts.fallback.range text = true := by
          by_contra hf
          exact hnot ⟨he, by simpa using hn, by simpa using hf⟩
        simp [getFontOrFallback, fontNameByKey, he, hn, hf]
      · simp [getFontOrFallback, fontNameByKey, he,
          Bool.not_eq_true _ ▸ (by simpa using hn : rangeTest fonts.normal.range text = false)]
    · simp [getFontOrFallback, fontNameByKey,
        (by simpa using he : fonts.fallback.enabled = false)]
  · rintro ⟨he, hn, hf⟩
    cases loaded <;> simp [getFontOrFallback, he, hn, hf]
  · intro hnot
    by_cases he : fonts.fallback.enabled
    · by_cases hn : rangeTest fonts.normal.range text
      · have hf : rangeTest fonts.fallback.range text = true := by
          by_contra hf
          exact hnot ⟨he, by simpa using hn, by simpa using hf⟩
        simp [getFontOrFallback, fontNameByKey, he, hn, hf]
      · simp [getFontOrFallback, fontNameByKey, he,
          Bool.not_eq_true _ ▸ (by simpa using hn : rangeTest fonts.normal.range text = false)]
    · simp [getFontOrFallback, fontNameByKey,
        (by simpa using he : fonts.fallback.enabled = false)]

/-- Witness for C1 on the default configuration: the character U+0101 is
outside the default normal range (above U+00FF) but inside the default
fallback range (not above U+0500), so the fallback name is selected. -/
theorem c1_font_fallback_cases_witness :
    (defaultStyle.fonts.fallback.enabled = true ∧
      rangeTest defaultStyle.fonts.normal.range "ā" = true ∧
      rangeTest defaultStyle.fonts.fallback.range "ā" = false) ∧
    (getFontOrFallback defaultStyle.fonts false (some "normal") "ā").1 =
      defaultStyle.fonts.fallback.name :=
  ⟨by decide,
    (c1_font_fallback_cases defaultStyle.fonts false (some "normal") "ā"
      (Or.inl rfl)).1 (by decide)⟩

/-! ## Claim C10 -/

/-- Claim C10: for a weight argument that is neither "normal" nor "bold"
(including the undefined weight none), getFontOrFallback behaves exactly
as for the weight "normal" — the coercion happens before any font-table
lookup — and it still returns either the normal font name or the
fallback font name. -/
theorem c10_weight_coercion (fonts : Fonts) (loaded : Bool)
    (w : Option String) (text : String)
    (hw1 : w ≠ some "normal") (hw2 : w ≠ some "bold") :
    getFontOrFallback fonts loaded w text =
      getFontOrFallback fonts loaded (some "normal") text ∧
    ((getFontOrFallback fonts loaded w text).1 = fonts.normal.name ∨
      (getFontOrFallback fonts loaded w text).1 = fonts.fallback.name) := by
  have h1 : (if w ≠ some "normal" ∧ w ≠ some "bold" then some "normal" else w) =
      some "normal" := by
    simp [hw1, hw2]
  have heq : getFontOrFallback fonts loaded w text =
      getFontOrFallback fonts loaded (some "normal") text := by
    unfold getFontOrFallback
    rw [h1]
    simp
  refine ⟨heq, ?_⟩
  rw [heq]
  unfold getFontOrFallback
  split_ifs <;> simp [fontNameByKey]

/-- Witness for C10: the undefined weight (none), as reaches the font
resolver from a legal line that sets no weight, is treated as normal. -/
theorem c10_weight_coercion_witness :
    ((none : Option String) ≠ some "normal") ∧
    ((none : Option String) ≠ some "bold") ∧
    (getFontOrFallback defaultStyle.fonts false none "abc" =
      getFontOrFallback defaultStyle.fonts false (some "normal") "abc" ∧
    ((getFontOrFallback defaultStyle.fonts false none "abc").1 =
        defaultStyle.fonts.normal.name ∨
      (getFontOrFallback defaultStyle.fonts false none "abc").1 =
        defaultStyle.fonts.fallback.name)) :=
  ⟨by decide, by decide,
    c10_weight_coercion defaultStyle.fonts false none "abc" (by decide) (by decide)⟩

/-! ## Claim C7 -/

/-- Claim C7: across any sequence of text draws in one document lifetime,
the backend registration call for the fallback font is issued at most
once: the number of registration calls added by the draws is at most one,
is zero whenever the flag is already set, and the fallback-loaded flag
never reverts — it ends true exactly when it started true or a
registration happened during the draws. -/
theorem c7_fallback_registered_once (style : Style) (translit : String → String)
    (oracle : Nat → ℚ) (draws : List (String × TextOpts)) (st : Storage) :
    (runTextDraws style translit oracle draws st).fallbackRegisterCalls +
        cond st.fallbackLoaded 1 0 ≤ st.fallbackRegisterCalls + 1 ∧
    st.fallbackRegisterCalls ≤
      (runTextDraws style translit oracle draws st).fallbackRegisterCalls ∧
    (runTextDraws style translit oracle draws st).fallbackLoaded =
      (st.fallbackLoaded ||
        decide (st.fallbackRegisterCalls <
          (runTextDraws style translit oracle draws st).fallbackRegisterCalls)) := by
  induction draws generalizing st with
  | nil =>
    cases h : st.fallbackLoaded <;> simp [runTextDraws, h]
  | cons d ds ih =>
    rw [runTextDraws_cons]
    obtain ⟨ha, hm, hb⟩ := ih (setText style translit oracle d.1 d.2 st)
    rcases setText_fallback_step style translit oracle d.1 d.2 st with
      ⟨h1, h2⟩ | ⟨h1, h2, h3⟩
    · rw [h1] at ha hm hb
      rw [h2] at ha hb
      exact ⟨ha, hm, hb⟩
    · rw [h2] at ha hb
      rw [h3] at ha hm
      rw [h1]
      have hlt : st.fallbackRegisterCalls <
          (runTextDraws style translit oracle ds
            (setText style translit oracle d.1 d.2 st)).fallbackRegisterCalls := by
        omega
      refine ⟨?_, by omega, ?_⟩
      · simp only [cond] at ha ⊢
        omega
      · rw [hb]
        simp [hlt]


/-! ## Claim C6 -/

/-- The decimal rendering of a single digit is one character long. -/
lemma toString_digit_length (k : Nat) (hk : k < 10) :
    (toString k).length = 1 := by
  interval_cases k <;> rfl

/-- toFixed2 always produces an integer part, a point, and exactly two
digits after it. -/
lemma toFixed2_two_decimals (q : ℚ) :
    ∃ ip fr : String, toFixed2 q = ip ++ "." ++ fr ∧ fr.length = 2 := by
  refine ⟨(if round (q * 100) < 0 then "-" else "") ++
      toString ((round (q * 100)).natAbs / 100),
    toString ((round (q * 100)).natAbs / 10 % 10) ++
      toString ((round (q * 100)).natAbs % 10), ?_, ?_⟩
  · simp only [toFixed2]
    rw [String.append_assoc, String.append_assoc, String.append_assoc]
  · rw [String.length_append,
      toString_digit_length _ (Nat.mod_lt _ (by norm_num)),
      toString_digit_length _ (Nat.mod_lt _ (by norm_num))]

/-- Evaluation of toFixed2 at 51.6: the scaled value rounds to 5160,
printed as 51.60. -/
lemma toFixed2_concrete : toFixed2 (51.6 : ℚ) = "51.60" := by
  simp only [toFixed2]
  rw [show round ((51.6 : ℚ) * 100) = 5160 by norm_num [round_eq]]
  decide

/-- Claim C6: prettyPrice renders a numeric value with exactly two
decimal places and appends a configured currency code as a trailing
literal; a string value is returned unchanged apart from the optional
currency suffix; in particular 51.6 with currency EUR renders as
"51.60 EUR" and the string "51.6" with no currency as "51.6". -/
theorem c6_pretty_price (q : ℚ) (s : String) (c : String) (hc : c ≠ "") :
    prettyPrice (some c) (JsValue.num q) = toFixed2 q ++ " " ++ c ∧
    prettyPrice none (JsValue.num q) = toFixed2 q ∧
    (∃ ip fr : String, toFixed2 q = ip ++ "." ++ fr ∧ fr.length = 2) ∧
    prettyPrice (some c) (JsValue.str s) = s ++ " " ++ c ∧
    prettyPrice none (JsValue.str s) = s ∧
    prettyPrice (some "EUR") (JsValue.num (51.6 : ℚ)) = "51.60 EUR" ∧
    prettyPrice none (JsValue.str "51.6") = "51.6" := by
  refine ⟨by simp [prettyPrice, hc], by simp [prettyPrice],
    toFixed2_two_decimals q, by simp [prettyPrice, hc], by simp [prettyPrice],
    ?_, by simp [prettyPrice]⟩
  simp [prettyPrice, toFixed2_concrete]

/-- Witness for C6 at currency EUR, numeric value 51.6 and string value
"51.6". -/
theorem c6_pretty_price_witness :
    ("EUR" ≠ "") ∧
    (prettyPrice (some "EUR") (JsValue.num (51.6 : ℚ)) =
        toFixed2 (51.6 : ℚ) ++ " " ++ "EUR" ∧
      prettyPrice none (JsValue.num (51.6 : ℚ)) = toFixed2 (51.6 : ℚ) ∧
      (∃ ip fr : String, toFixed2 (51.6 : ℚ) = ip ++ "." ++ fr ∧ fr.length = 2) ∧
      prettyPrice (some "EUR") (JsValue.str "51.6") = "51.6" ++ " " ++ "EUR" ∧
      prettyPrice none (JsValue.str "51.6") = "51.6" ∧
      prettyPrice (some "EUR") (JsValue.num (51.6 : ℚ)) = "51.60 EUR" ∧
      prettyPrice none (JsValue.str "51.6") = "51.6") :=
  ⟨by decide, c6_pretty_price (51.6 : ℚ) "51.6" "EUR" (by decide)⟩

/-! ## Claim C4 -/

/-- Claim C4: for a skipDown draw, writing y0 for the cursor y after the
marginTop advance and yNew for the backend reported y after the draw: a
positive measured delta yNew - y0 is subtracted back off, so the cursor
returns to y0; a zero delta instead subtracts the fixed single-line
constant, leaving y0 - 11.5. -/
theorem c4_skipdown_hold (style : Style) (translit : String → String)
    (oracle : Nat → ℚ) (text : String) (opts : TextOpts) (st : Storage)
    (hskip : opts.skipDown = true) :
    (0 < oracle st.k - (st.cursorY + opts.marginTop) →
      (setText style translit oracle text opts st).cursorY =
        st.cursorY + opts.marginTop) ∧
    (oracle st.k - (st.cursorY + opts.marginTop) = 0 →
      (setText style translit oracle text opts st).cursorY =
        st.cursorY + opts.marginTop - 11.5) := by
  constructor
  · intro h
    simp only [setText, hskip, if_true, gt_iff_lt]
    rw [if_pos h]
    ring
  · intro h
    have hno : ¬ (0 < oracle st.k - (st.cursorY + opts.marginTop)) := by
      rw [h]
      exact lt_irrefl 0
    simp only [setText, hskip, if_true, gt_iff_lt]
    rw [if_neg hno]
    have h2 : oracle st.k = st.cursorY + opts.marginTop := by linarith
    rw [h2]

/-- Witness for C4: a draw starting at cursor y 0 with no marginTop whose
backend reported y is 100 (positive delta) leaves the cursor at its
pre-draw position. -/
theorem c4_skipdown_hold_witness :
    (({ skipDown := true } : TextOpts).skipDown = true) ∧
    (0 < (fun _ => (100 : ℚ)) initialStorage.k -
      (initialStorage.cursorY + ({ skipDown := true } : TextOpts).marginTop)) ∧
    (setText defaultStyle id (fun _ => (100 : ℚ)) "x" { skipDown := true }
        initialStorage).cursorY =
      initialStorage.cursorY + ({ skipDown := true } : TextOpts).marginTop :=
  ⟨rfl, by simp [initialStorage],
    (c4_skipdown_hold defaultStyle id (fun _ => (100 : ℚ)) "x"
      { skipDown := true } initialStorage rfl).1 (by simp [initialStorage])⟩

/-! ## Claim C8 -/

/-- setText does not touch the recorded section heights. -/
lemma setText_heights (style : Style) (translit : String → String)
    (oracle : Nat → ℚ) (text : String) (opts : TextOpts) (st : Storage) :
    (setText style translit oracle text opts st).customerHeight = st.customerHeight ∧
    (setText style translit oracle text opts st).sellerHeight = st.sellerHeight := by
  constructor <;> simp [setText]

/-- A fold of height-preserving steps preserves the recorded section
heights. -/
lemma foldl_heights {α : Type} (f : Storage → α → Storage)
    (hf : ∀ st a, (f st a).customerHeight = st.customerHeight ∧
      (f st a).sellerHeight = st.sellerHeight) :
    ∀ (l : List α) (st : Storage),
      (l.foldl f st).customerHeight = st.customerHeight ∧
      (l.foldl f st).sellerHeight = st.sellerHeight
  | [], _ => ⟨rfl, rfl⟩
  | a :: l, st => by
    obtain ⟨h1, h2⟩ := hf st a
    obtain ⟨h3, h4⟩ := foldl_heights f hf l (f st a)
    rw [List.foldl_cons]
    exact ⟨by rw [h3, h1], by rw [h4, h2]⟩

/-- One detail line does not touch the recorded section heights. -/
lemma detailsLine_heights (style : Style) (translit : String → String)
    (oracle : Nat → ℚ) (st : Storage) (line : DetailLine) :
    (detailsLine style translit oracle st line).customerHeight = st.customerHeight ∧
    (detailsLine style translit oracle st line).sellerHeight = st.sellerHeight := by
  unfold detailsLine
  obtain ⟨h3, h4⟩ := foldl_heights
    (fun st v => setText style translit oracle v
      { marginTop := 4, maxWidth := some 250 } st)
    (fun st v => setText_heights style translit oracle v _ st)
    line.value.toList
    (setText style translit oracle (line.label ++ ":")
      { fontWeight := some "bold", marginTop := 8, maxWidth := some 250 } st)
  obtain ⟨h1, h2⟩ := setText_heights style translit oracle (line.label ++ ":")
    { fontWeight := some "bold", marginTop := 8, maxWidth := some 250 } st
  exact ⟨by rw [h3, h1], by rw [h4, h2]⟩

/-- Claim C8: each generateDetails call records the cursor y it ends
with as the height of that side, the seller pass leaves the recorded customer
height untouched, and the cursor y written at the start of the table
section is the maximum of the two recorded heights — that is, of the
final cursor positions of the two details sections. -/
theorem c8_table_start_max_heights (style : Style) (translit : String → String)
    (oracle : Nat → ℚ) (cLines sLines : List DetailLine) (st0 : Storage) :
    (generateDetails style translit oracle DetailsType.customer cLines st0).customerHeight =
      (generateDetails style translit oracle DetailsType.customer cLines st0).cursorY ∧
    (generateDetails style translit oracle DetailsType.seller sLines
        (generateDetails style translit oracle DetailsType.customer cLines st0)).sellerHeight =
      (generateDetails style translit oracle DetailsType.seller sLines
        (generateDetails style translit oracle DetailsType.customer cLines st0)).cursorY ∧
    (generatePartsStart (generateDetails style translit oracle DetailsType.seller sLines
        (generateDetails style translit oracle DetailsType.customer cLines st0))).cursorY =
      max (generateDetails style translit oracle DetailsType.customer cLines st0).cursorY
        (generateDetails style translit oracle DetailsType.seller sLines
          (generateDetails style translit oracle DetailsType.customer cLines st0)).cursorY := by
  set st1 := generateDetails style translit oracle DetailsType.customer cLines st0 with hst1
  set st2 := generateDetails style translit oracle DetailsType.seller sLines st1 with hst2
  have hc1 : st1.customerHeight = st1.cursorY := by
    rw [hst1]
    simp [generateDetails]
  have hs2 : st2.sellerHeight = st2.cursorY := by
    rw [hst2]
    simp [generateDetails]
  have hpres : st2.customerHeight = st1.customerHeight := by
    rw [hst2]
    unfold generateDetails
    obtain ⟨h3, _⟩ := foldl_heights (detailsLine style translit oracle)
      (fun st line => detailsLine_heights style translit oracle st line) sLines
      (setCursorX style.header.textPosition
        (setCursorY (style.header.height + 18) st1))
    simp only [setCursorX, setCursorY] at h3
    simp [h3, setCursorX, setCursorY]
  refine ⟨hc1, hs2, ?_⟩
  unfold generatePartsStart
  simp [setCursorY, hpres, hc1, hs2]

/-! ## Helper lemmas: the column loop of generateTableRow -/

/-- The draw trace of one setText call: the previous events with the one
new draw appended. -/
lemma setText_events (style : Style) (translit : String → String)
    (oracle : Nat → ℚ) (text : String) (opts : TextOpts) (st : Storage) :
    (setText style translit oracle text opts st).events =
      st.events ++ [⟨valueOrTransliterate style.fonts translit text,
        (getFontOrFallback style.fonts st.fallbackLoaded
          (some (opts.fontWeight.getD "normal")) text).1,
        st.cursorX, st.cursorY + opts.marginTop, opts.maxWidth⟩] := by
  simp [setText]

/-- setText advances the draw counter by one. -/
lemma setText_k (style : Style) (translit : String → String)
    (oracle : Nat → ℚ) (text : String) (opts : TextOpts) (st : Storage) :
    (setText style translit oracle text opts st).k = st.k + 1 := by
  simp [setText]

/-- After setText the backend document y is the oracle value of the draw
just issued. -/
lemma setText_docY (style : Style) (translit : String → String)
    (oracle : Nat → ℚ) (text : String) (opts : TextOpts) (st : Storage) :
    (setText style translit oracle text opts st).docY = oracle st.k := by
  simp [setText]

/-- Shifting a range-indexed map by one: the pair list of columns
i, i+1, ..., i+m is the pair of column i followed by the pair list
starting at i+1. -/
lemma range_map_spec_shift (style : Style) (n : Nat) (m i : Nat) :
    (List.range (m + 1)).map (fun j =>
        ((specColumnXW style n (i + j)).1, some (specColumnXW style n (i + j)).2)) =
      ((specColumnXW style n i).1, some (specColumnXW style n i).2) ::
        (List.range m).map (fun j =>
          ((specColumnXW style n (i + 1 + j)).1, some (specColumnXW style n (i + 1 + j)).2)) := by
  rw [List.range_succ_eq_map, List.map_cons, List.map_map]
  refine congrArg₂ List.cons (by simp) ?_
  apply List.map_congr_left
  intro j _
  have hj : i + Nat.succ j = i + 1 + j := by omega
  simp only [Function.comp_apply, hj]

/-- The column loop produces the per-column (x, width) pairs of the
closed-form layout specColumnXW, provided the running start and width
locals agree with the closed form whenever the loop is still in the
shared-width region. -/
lemma rowLoop_events_xw (style : Style) (translit : String → String)
    (numToString : ℚ → String) (oracle : Nat → ℚ) (currency : Option String)
    (fontWeight : String) (n : Nat) :
    ∀ (rest : List Cell) (i : Nat) (acc : RowAcc),
      ((i : ℤ) ≤ (n : ℤ) - 2 →
        acc.start = style.document.marginLeft + (i : ℚ) * (sharedWidth style n + 10) ∧
        acc.mW = sharedWidth style n) →
      List.map eventXW
          (rowLoop style translit numToString oracle currency fontWeight n rest i acc).st.events =
        List.map eventXW acc.st.events ++
          (List.range rest.length).map (fun j =>
            ((specColumnXW style n (i + j)).1, some (specColumnXW style n (i + j)).2))
  | [], i, acc, _ => by simp [rowLoop]
  | c :: rest, i, acc, hinv => by
    rcases lt_trichotomy ((i : ℤ)) ((n : ℤ) - 2) with hlt | heq | hgt
    · obtain ⟨hs, hw⟩ := hinv (le_of_lt hlt)
      have hinv' : ((i + 1 : ℕ) : ℤ) ≤ (n : ℤ) - 2 →
          (rowCell style translit numToString oracle currency fontWeight n c i acc).start =
            style.document.marginLeft + ((i + 1 : ℕ) : ℚ) * (sharedWidth style n + 10) ∧
          (rowCell style translit numToString oracle currency fontWeight n c i acc).mW =
            sharedWidth style n := by
        intro _
        constructor
        · simp only [rowCell, if_pos hlt]
          push_cast
          rw [hs, hw]
          ring
        · simp only [rowCell, if_pos hlt]
          exact hw
      have ih := rowLoop_events_xw style translit numToString oracle currency fontWeight n
        rest (i + 1)
        (rowCell style translit numToString oracle currency fontWeight n c i acc) hinv'
      have hmap : List.map eventXW
          (rowCell style translit numToString oracle currency fontWeight n c i acc).st.events =
          List.map eventXW acc.st.events ++
            [((specColumnXW style n i).1, some (specColumnXW style n i).2)] := by
        simp only [rowCell, if_pos hlt]
        rw [setText_events]
        simp [setCursorX, eventXW, specColumnXW, if_pos hlt, hs, hw]
      rw [rowLoop, ih, hmap, List.length_cons, range_map_spec_shift,
        List.append_assoc, List.singleton_append]
    · have hinv' : ((i + 1 : ℕ) : ℤ) ≤ (n : ℤ) - 2 →
          (rowCell style translit numToString oracle currency fontWeight n c i acc).start =
            style.document.marginLeft + ((i + 1 : ℕ) : ℚ) * (sharedWidth style n + 10) ∧
          (rowCell style translit numToString oracle currency fontWeight n c i acc).mW =
            sharedWidth style n := by
        intro hcon
        exact absurd hcon (by omega)
      have ih := rowLoop_events_xw style translit numToString oracle currency fontWeight n
        rest (i + 1)
        (rowCell style translit numToString oracle currency fontWeight n c i acc) hinv'
      have hnlt : ¬ ((i : ℤ) < (n : ℤ) - 2) := by omega
      have hmap : List.map eventXW
          (rowCell style translit numToString oracle currency fontWeight n c i acc).st.events =
          List.map eventXW acc.st.events ++
            [((specColumnXW style n i).1, some (specColumnXW style n i).2)] := by
        simp only [rowCell, if_neg hnlt, if_pos heq]
        rw [setText_events]
        simp [setCursorX, eventXW, specColumnXW, if_neg hnlt, if_pos heq]
      rw [rowLoop, ih, hmap, List.length_cons, range_map_spec_shift,
        List.append_assoc, List.singleton_append]
    · have hinv' : ((i + 1 : ℕ) : ℤ) ≤ (n : ℤ) - 2 →
          (rowCell style translit numToString oracle currency fontWeight n c i acc).start =
            style.document.marginLeft + ((i + 1 : ℕ) : ℚ) * (sharedWidth style n + 10) ∧
          (rowCell style translit numToString oracle currency fontWeight n c i acc).mW =
            sharedWidth style n := by
        intro hcon
        exact absurd hcon (by omega)
      have ih := rowLoop_events_xw style translit numToString oracle currency fontWeight n
        rest (i + 1)
        (rowCell style translit numToString oracle currency fontWeight n c i acc) hinv'
      have hnlt : ¬ ((i : ℤ) < (n : ℤ) - 2) := by omega
      have hne : ¬ ((i : ℤ) = (n : ℤ) - 2) := by omega
      have hmap : List.map eventXW
          (rowCell style translit numToString oracle currency fontWeight n c i acc).st.events =
          List.map eventXW acc.st.events ++
            [((specColumnXW style n i).1, some (specColumnXW style n i).2)] := by
        simp only [rowCell, if_neg hnlt, if_neg hne]
        rw [setText_events]
        simp [setCursorX, eventXW, specColumnXW, if_neg hnlt, if_neg hne]
      rw [rowLoop, ih, hmap, List.length_cons, range_map_spec_shift,
        List.append_assoc, List.singleton_append]

/-- setCursorY does not change the draw trace. -/
lemma setCursorY_events (v : ℚ) (st : Storage) : (setCursorY v st).events = st.events := rfl

/-- The cell phase of generateTableRow draws its columns exactly at the
closed-form positions and widths of specColumnXW. -/
lemma generateTableRowCells_events_xw (style : Style) (translit : String → String)
    (numToString : ℚ → String) (oracle : Nat → ℚ) (currency : Option String)
    (type : RowType) (cols : List Cell) (st0 : Storage) :
    List.map eventXW
        (generateTableRowCells style translit numToString oracle currency type cols st0).events =
      List.map eventXW st0.events ++
        (List.range cols.length).map (fun j =>
          ((specColumnXW style cols.length j).1, some (specColumnXW style cols.length j).2)) := by
  have key := rowLoop_events_xw style translit numToString oracle currency
    (if type = RowType.header then "bold" else "normal") cols.length cols 0
    ⟨setCursorY ((setCursorY st0.docY st0).cursorY + 17) (setCursorY st0.docY st0),
      style.document.marginLeft,
      (style.header.textPosition - style.document.marginLeft -
        style.document.marginRight) / ((cols.length : ℚ) - 2),
      (setCursorY ((setCursorY st0.docY st0).cursorY + 17) (setCursorY st0.docY st0)).cursorY⟩
    (by
      intro _
      exact ⟨by simp, rfl⟩)
  simp only [Nat.zero_add] at key
  simp only [generateTableRowCells, setCursorY_events]
  rw [key]
  rfl

/-- One column iteration issues exactly one draw. -/
lemma rowCell_st_k (style : Style) (translit : String → String)
    (numToString : ℚ → String) (oracle : Nat → ℚ) (currency : Option String)
    (fontWeight : String) (n : Nat) (c : Cell) (i : Nat) (acc : RowAcc) :
    (rowCell style translit numToString oracle currency fontWeight n c i acc).st.k =
      acc.st.k + 1 := by
  unfold rowCell
  split_ifs <;> simp [setText_k, setCursorX]

/-- After one column iteration the backend y is the oracle value of the
draw just issued. -/
lemma rowCell_st_docY (style : Style) (translit : String → String)
    (numToString : ℚ → String) (oracle : Nat → ℚ) (currency : Option String)
    (fontWeight : String) (n : Nat) (c : Cell) (i : Nat) (acc : RowAcc) :
    (rowCell style translit numToString oracle currency fontWeight n c i acc).st.docY =
      oracle acc.st.k := by
  unfold rowCell
  split_ifs <;> simp [setText_docY, setCursorX]

/-- One column iteration raises maxY to the reported y if it increased
(part_000 lines 764-766). -/
lemma rowCell_maxY (style : Style) (translit : String → String)
    (numToString : ℚ → String) (oracle : Nat → ℚ) (currency : Option String)
    (fontWeight : String) (n : Nat) (c : Cell) (i : Nat) (acc : RowAcc) :
    (rowCell style translit numToString oracle currency fontWeight n c i acc).maxY =
      if oracle acc.st.k ≥ acc.maxY then oracle acc.st.k else acc.maxY := by
  unfold rowCell
  split_ifs <;> simp_all [setText_docY, setCursorX]

/-- One column iteration appends exactly one draw event, issued at the
incoming cursor y (cells carry no marginTop). -/
lemma rowCell_events_y (style : Style) (translit : String → String)
    (numToString : ℚ → String) (oracle : Nat → ℚ) (currency : Option String)
    (fontWeight : String) (n : Nat) (c : Cell) (i : Nat) (acc : RowAcc) :
    ∃ e : DrawEvent,
      (rowCell style translit numToString oracle currency fontWeight n c i acc).st.events =
        acc.st.events ++ [e] ∧ e.y = acc.st.cursorY := by
  unfold rowCell
  split_ifs <;>
  · rw [setText_events]
    refine ⟨_, rfl, ?_⟩
    simp [setCursorX]

/-- The column loop issues one draw per column. -/
lemma rowLoop_st_k (style : Style) (translit : String → String)
    (numToString : ℚ → String) (oracle : Nat → ℚ) (currency : Option String)
    (fontWeight : String) (n : Nat) :
    ∀ (rest : List Cell) (i : Nat) (acc : RowAcc),
      (rowLoop style translit numToString oracle currency fontWeight n rest i acc).st.k =
        acc.st.k + rest.length
  | [], _, acc => by simp [rowLoop]
  | c :: rest, i, acc => by
    rw [rowLoop, rowLoop_st_k style translit numToString oracle currency fontWeight n
      rest (i + 1) (rowCell style translit numToString oracle currency fontWeight n c i acc),
      rowCell_st_k]
    simp only [List.length_cons]
    omega

/-- The column loop only appends to the draw trace. -/
lemma rowLoop_events_ext (style : Style) (translit : String → String)
    (numToString : ℚ → String) (oracle : Nat → ℚ) (currency : Option String)
    (fontWeight : String) (n : Nat) :
    ∀ (rest : List Cell) (i : Nat) (acc : RowAcc),
      ∃ l, (rowLoop style translit numToString oracle currency fontWeight n rest i acc).st.events =
        acc.st.events ++ l
  | [], _, acc => ⟨[], by simp [rowLoop]⟩
  | c :: rest, i, acc => by
    obtain ⟨l, hl⟩ := rowLoop_events_ext style translit numToString oracle currency fontWeight n
      rest (i + 1) (rowCell style translit numToString oracle currency fontWeight n c i acc)
    obtain ⟨e, he, _⟩ := rowCell_events_y style translit numToString oracle currency fontWeight
      n c i acc
    exact ⟨[e] ++ l, by rw [rowLoop, hl, he, List.append_assoc]⟩

/-- After a nonempty column loop the backend y is the oracle value of
the last cell drawn. -/
lemma rowLoop_docY (style : Style) (translit : String → String)
    (numToString : ℚ → String) (oracle : Nat → ℚ) (currency : Option String)
    (fontWeight : String) (n : Nat) :
    ∀ (rest : List Cell) (i : Nat) (acc : RowAcc), rest ≠ [] →
      (rowLoop style translit numToString oracle currency fontWeight n rest i acc).st.docY =
        oracle (acc.st.k + (rest.length - 1))
  | [], _, _, h => absurd rfl h
  | [c], i, acc, _ => by
    rw [rowLoop, rowLoop, rowCell_st_docY]
    simp
  | c :: c' :: rest, i, acc, _ => by
    rw [rowLoop, rowLoop_docY style translit numToString oracle currency fontWeight n
      (c' :: rest) (i + 1) (rowCell style translit numToString oracle currency fontWeight n c i acc)
      (by simp), rowCell_st_k]
    congr 1
    simp only [List.length_cons]
    omega

/-- The first draw of a nonempty column loop is issued at the incoming
cursor y. -/
lemma rowLoop_first_event_y (style : Style) (translit : String → String)
    (numToString : ℚ → String) (oracle : Nat → ℚ) (currency : Option String)
    (fontWeight : String) (n : Nat) (c : Cell) (rest : List Cell) (i : Nat) (acc : RowAcc) :
    (((rowLoop style translit numToString oracle currency fontWeight n (c :: rest) i acc).st.events.getD
        acc.st.events.length default)).y = acc.st.cursorY := by
  obtain ⟨e, he, hy⟩ := rowCell_events_y style translit numToString oracle currency fontWeight
    n c i acc
  obtain ⟨l, hl⟩ := rowLoop_events_ext style translit numToString oracle currency fontWeight n
    rest (i + 1) (rowCell style translit numToString oracle currency fontWeight n c i acc)
  rw [rowLoop, hl, he, List.append_assoc, List.singleton_append]
  rw [List.getD_eq_getElem?_getD, List.getElem?_append_right (le_refl _), Nat.sub_self]
  simp [hy]

/-- Unfolding maxFold on a first element. -/
lemma maxFold_cons (a y : ℚ) (l : List ℚ) :
    maxFold a (y :: l) = maxFold (if y ≥ a then y else a) l := rfl

/-- The starting value bounds the running-maximum fold from below. -/
lemma le_maxFold_init : ∀ (l : List ℚ) (a : ℚ), a ≤ maxFold a l
  | [], a => le_refl a
  | y :: l, a => by
    rw [maxFold_cons]
    refine le_trans ?_ (le_maxFold_init l (if y ≥ a then y else a))
    split_ifs with hge
    · exact hge
    · exact le_refl a

/-- Every element of the list bounds the running-maximum fold from
below. -/
lemma mem_le_maxFold : ∀ (l : List ℚ) (a y : ℚ), y ∈ l → y ≤ maxFold a l
  | [], _, _, h => absurd h (List.not_mem_nil _)
  | y' :: l, a, y, h => by
    rw [maxFold_cons]
    rcases List.mem_cons.mp h with rfl | hmem
    · refine le_trans ?_ (le_maxFold_init l _)
      split_ifs with hge
      · exact le_refl y
      · push_neg at hge
        exact le_of_lt hge
    · exact mem_le_maxFold l _ y hmem

/-- The running-maximum fold is the starting value or an element of the
list. -/
lemma maxFold_eq_or_mem : ∀ (l : List ℚ) (a : ℚ), maxFold a l = a ∨ maxFold a l ∈ l
  | [], _ => Or.inl rfl
  | y :: l, a => by
    rw [maxFold_cons]
    rcases maxFold_eq_or_mem l (if y ≥ a then y else a) with heq | hmem
    · rw [heq]
      split_ifs with hge
      · exact Or.inr (List.mem_cons_self _ _)
      · exact Or.inl rfl
    · exact Or.inr (List.mem_cons_of_mem _ hmem)

/-- The running maximum of the column loop is the maxFold of the
reported y values of its draws over the incoming maximum. -/
lemma rowLoop_maxY (style : Style) (translit : String → String)
    (numToString : ℚ → String) (oracle : Nat → ℚ) (currency : Option String)
    (fontWeight : String) (n : Nat) :
    ∀ (rest : List Cell) (i : Nat) (acc : RowAcc),
      (rowLoop style translit numToString oracle currency fontWeight n rest i acc).maxY =
        maxFold acc.maxY ((List.range' acc.st.k rest.length).map oracle)
  | [], _, acc => by simp [rowLoop, maxFold]
  | c :: rest, i, acc => by
    rw [rowLoop, rowLoop_maxY style translit numToString oracle currency fontWeight n
      rest (i + 1) (rowCell style translit numToString oracle currency fontWeight n c i acc),
      rowCell_maxY, rowCell_st_k, List.length_cons, List.range'_succ, List.map_cons,
      maxFold_cons]

/-! ## Claim C2 -/

/-- Claim C2: for a row of N at least 3 columns, the cell draws are
issued exactly at the closed-form layout — columns 0..N-3 left to right
from the left margin with the shared width and a 10-unit gutter (so
column 0 sits at the margin and each subsequent shared column at the
previous x plus width plus 10), column N-2 at the quantity position and
width, column N-1 at the total position and width — and for N = 3 the
shared width is exactly headerTextPosition - marginLeft - marginRight. -/
theorem c2_column_layout (style : Style) (translit : String → String)
    (numToString : ℚ → String) (oracle : Nat → ℚ) (currency : Option String)
    (type : RowType) (cols : List Cell) (st0 : Storage)
    (h3 : 3 ≤ cols.length) :
    (List.map eventXW
        (generateTableRowCells style translit numToString oracle currency type cols st0).events =
      List.map eventXW st0.events ++
        (List.range cols.length).map (fun j =>
          ((specColumnXW style cols.length j).1, some (specColumnXW style cols.length j).2))) ∧
    (∀ i : Nat, (i : ℤ) < (cols.length : ℤ) - 2 →
      specColumnXW style cols.length i =
        (style.document.marginLeft + (i : ℚ) * (sharedWidth style cols.length + 10),
          sharedWidth style cols.length)) ∧
    (∀ i : Nat, ((i : ℤ) + 1) < (cols.length : ℤ) - 2 →
      (specColumnXW style cols.length (i + 1)).1 =
        (specColumnXW style cols.length i).1 +
          ((specColumnXW style cols.length i).2 + 10)) ∧
    specColumnXW style cols.length (cols.length - 2) =
      (style.table.quantity.position, style.table.quantity.maxWidth) ∧
    specColumnXW style cols.length (cols.length - 1) =
      (style.table.total.position, style.table.total.maxWidth) ∧
    (cols.length = 3 →
      sharedWidth style 3 = style.header.textPosition - style.document.marginLeft -
        style.document.marginRight) := by
  refine ⟨generateTableRowCells_events_xw style translit numToString oracle currency type cols st0,
    ?_, ?_, ?_, ?_, ?_⟩
  · intro i hi
    simp [specColumnXW, if_pos hi]
  · intro i hi
    have hi1 : ((i + 1 : ℕ) : ℤ) < (cols.length : ℤ) - 2 := by omega
    have hi0 : (i : ℤ) < (cols.length : ℤ) - 2 := by omega
    simp only [specColumnXW, if_pos hi1, if_pos hi0]
    push_cast
    ring
  · have ha : ¬ (((cols.length - 2 : ℕ) : ℤ) < (cols.length : ℤ) - 2) := by omega
    have hb : ((cols.length - 2 : ℕ) : ℤ) = (cols.length : ℤ) - 2 := by omega
    simp [specColumnXW, ha, hb]
  · have ha : ¬ (((cols.length - 1 : ℕ) : ℤ) < (cols.length : ℤ) - 2) := by omega
    have hb : ¬ (((cols.length - 1 : ℕ) : ℤ) = (cols.length : ℤ) - 2) := by omega
    simp [specColumnXW, ha, hb]
  · intro h
    rw [sharedWidth]
    norm_num

/-- Witness for C2: a three-column row on the default configuration. -/
theorem c2_column_layout_witness :
    3 ≤ ([⟨JsValue.str "a", false⟩, ⟨JsValue.str "b", false⟩,
      ⟨JsValue.str "d", false⟩] : List Cell).length ∧
    List.map eventXW
        (generateTableRowCells defaultStyle id (fun _ => "") (fun _ => 0) none RowType.row
          [⟨JsValue.str "a", false⟩, ⟨JsValue.str "b", false⟩, ⟨JsValue.str "d", false⟩]
          initialStorage).events =
      List.map eventXW initialStorage.events ++
        (List.range ([⟨JsValue.str "a", false⟩, ⟨JsValue.str "b", false⟩,
            ⟨JsValue.str "d", false⟩] : List Cell).length).map (fun j =>
          ((specColumnXW defaultStyle ([⟨JsValue.str "a", false⟩, ⟨JsValue.str "b", false⟩,
              ⟨JsValue.str "d", false⟩] : List Cell).length j).1,
            some (specColumnXW defaultStyle ([⟨JsValue.str "a", false⟩,
              ⟨JsValue.str "b", false⟩, ⟨JsValue.str "d", false⟩] : List Cell).length j).2)) :=
  ⟨by decide,
    (c2_column_layout defaultStyle id (fun _ => "") (fun _ => 0) none RowType.row
      [⟨JsValue.str "a", false⟩, ⟨JsValue.str "b", false⟩, ⟨JsValue.str "d", false⟩]
      initialStorage (by decide)).1⟩

/-! ## Claim C3 -/

/-- Counterexample for C3: on the default configuration, a 2-column row
does not fail — the source has no throw on this path, the embedded cell
phase is total — and it draws the two cells at the configured quantity
and total positions and widths (the division by N - 2 = 0 feeds only the
unused shared-width local, never a draw). -/
theorem c3_counterexample_two_columns_succeed :
    List.map eventXW
        (generateTableRowCells defaultStyle id (fun _ => "") (fun _ => 0) none RowType.row
          [⟨JsValue.str "a", false⟩, ⟨JsValue.str "b", false⟩] initialStorage).events =
      [((330 : ℚ), some (140 : ℚ)), ((490 : ℚ), some (80 : ℚ))] := by
  rw [generateTableRowCells_events_xw]
  norm_num [initialStorage, defaultStyle, specColumnXW, List.range_succ]

/-- Amended C3: for a table row of exactly 2 columns, generateTableRow
does not fail fast — it raises no error and silently draws both cells,
placing the first at the configured quantity position and width and the
second at the configured total position and width; the zero divisor
(N - 2) only affects the shared-width value, which is never used for any
cell of a 2-column row. -/
theorem c3_two_columns_no_failure (style : Style) (translit : String → String)
    (numToString : ℚ → String) (oracle : Nat → ℚ) (currency : Option String)
    (type : RowType) (ca cb : Cell) (st0 : Storage) :
    List.map eventXW
        (generateTableRowCells style translit numToString oracle currency type [ca, cb] st0).events =
      List.map eventXW st0.events ++
        [(style.table.quantity.position, some style.table.quantity.maxWidth),
          (style.table.total.position, some style.table.total.maxWidth)] := by
  rw [generateTableRowCells_events_xw]
  norm_num [specColumnXW, List.range_succ]

/-! ## Claim C5 -/

/-- The cursor y after the cell phase of a table row is the maxFold of
the reported cell y values over the row starting position docY + 17. -/
lemma generateTableRowCells_cursorY (style : Style) (translit : String → String)
    (numToString : ℚ → String) (oracle : Nat → ℚ) (currency : Option String)
    (type : RowType) (cols : List Cell) (st0 : Storage) :
    (generateTableRowCells style translit numToString oracle currency type cols st0).cursorY =
      maxFold (st0.docY + 17) ((List.range' st0.k cols.length).map oracle) := by
  simp only [generateTableRowCells, setCursorY]
  rw [rowLoop_maxY]

/-- Claim C5: after all cells of a nonempty table row are drawn, the
cursor y at the setCursor("y", maxY) point equals the maximum reported y
over the cells of the row — it is the reported y of some cell and is at
least the reported y of every cell — provided the reported y of each cell is
at least the row starting position (the backend never reports a draw
bottom above the position drawn at). -/
theorem c5_row_height_is_max_cell_y (style : Style) (translit : String → String)
    (numToString : ℚ → String) (oracle : Nat → ℚ) (currency : Option String)
    (type : RowType) (cols : List Cell) (st0 : Storage)
    (hne : cols ≠ [])
    (hge : ∀ i, i < cols.length → st0.docY + 17 ≤ oracle (st0.k + i)) :
    (∃ i, i < cols.length ∧
      (generateTableRowCells style translit numToString oracle currency type cols st0).cursorY =
        oracle (st0.k + i)) ∧
    (∀ i, i < cols.length →
      oracle (st0.k + i) ≤
        (generateTableRowCells style translit numToString oracle currency type cols st0).cursorY) := by
  have hcur := generateTableRowCells_cursorY style translit numToString oracle currency
    type cols st0
  have hmem : ∀ i, i < cols.length →
      oracle (st0.k + i) ∈ (List.range' st0.k cols.length).map oracle := by
    intro i hi
    exact List.mem_map_of_mem oracle (List.mem_range'_1.mpr ⟨Nat.le_add_right _ _, by omega⟩)
  constructor
  · rcases maxFold_eq_or_mem ((List.range' st0.k cols.length).map oracle) (st0.docY + 17) with
      heq | hmem2
    · have hpos : 0 < cols.length := List.length_pos.mpr hne
      refine ⟨0, hpos, ?_⟩
      have h1 := mem_le_maxFold ((List.range' st0.k cols.length).map oracle) (st0.docY + 17)
        (oracle (st0.k + 0)) (hmem 0 hpos)
      have h2 := hge 0 hpos
      rw [hcur, heq]
      rw [heq] at h1
      exact le_antisymm h2 h1
    · obtain ⟨j, hj, hoj⟩ := List.mem_map.mp hmem2
      obtain ⟨hj1, hj2⟩ := List.mem_range'_1.mp hj
      refine ⟨j - st0.k, by omega, ?_⟩
      rw [hcur, ← hoj]
      congr 1
      omega
  · intro i hi
    rw [hcur]
    exact mem_le_maxFold _ _ _ (hmem i hi)

/-- Witness for C5: a two-cell row with every reported cell y equal to
100, starting from the initial storage. -/
theorem c5_row_height_is_max_cell_y_witness :
    (([⟨JsValue.str "a", false⟩, ⟨JsValue.str "b", false⟩] : List Cell) ≠ []) ∧
    (∀ i, i < ([⟨JsValue.str "a", false⟩, ⟨JsValue.str "b", false⟩] : List Cell).length →
      initialStorage.docY + 17 ≤ (fun _ => (100 : ℚ)) (initialStorage.k + i)) ∧
    ((∃ i, i < ([⟨JsValue.str "a", false⟩, ⟨JsValue.str "b", false⟩] : List Cell).length ∧
      (generateTableRowCells defaultStyle id (fun _ => "") (fun _ => (100 : ℚ)) none
          RowType.row [⟨JsValue.str "a", false⟩, ⟨JsValue.str "b", false⟩]
          initialStorage).cursorY = (fun _ => (100 : ℚ)) (initialStorage.k + i)) ∧
    (∀ i, i < ([⟨JsValue.str "a", false⟩, ⟨JsValue.str "b", false⟩] : List Cell).length →
      (fun _ => (100 : ℚ)) (initialStorage.k + i) ≤
        (generateTableRowCells defaultStyle id (fun _ => "") (fun _ => (100 : ℚ)) none
          RowType.row [⟨JsValue.str "a", false⟩, ⟨JsValue.str "b", false⟩]
          initialStorage).cursorY)) := by
  have hge : ∀ i, i < ([⟨JsValue.str "a", false⟩, ⟨JsValue.str "b", false⟩] : List Cell).length →
      initialStorage.docY + 17 ≤ (fun _ => (100 : ℚ)) (initialStorage.k + i) := by
    intro i _
    simp only [initialStorage, zero_add]
    decide
  exact ⟨by decide, hge,
    c5_row_height_is_max_cell_y defaultStyle id (fun _ => "") (fun _ => (100 : ℚ)) none
      RowType.row [⟨JsValue.str "a", false⟩, ⟨JsValue.str "b", false⟩] initialStorage
      (by decide) hge⟩

/-! ## Claim C9 -/

/-- The header separator line does not change the draw trace. -/
lemma generateLine_events (style : Style) (st : Storage) :
    (generateLine style st).events = st.events := rfl

/-- The header separator line does not change the backend y. -/
lemma generateLine_docY (style : Style) (st : Storage) :
    (generateLine style st).docY = st.docY := rfl

/-- generateTableRow has the draw trace of its cell phase (the header
separator strokes but draws no text). -/
lemma generateTableRow_events (style : Style) (translit : String → String)
    (numToString : ℚ → String) (oracle : Nat → ℚ) (currency : Option String)
    (type : RowType) (cols : List Cell) (st0 : Storage) :
    (generateTableRow style translit numToString oracle currency type cols st0).events =
      (generateTableRowCells style translit numToString oracle currency type cols st0).events := by
  unfold generateTableRow
  split_ifs <;> rfl

/-- generateTableRow leaves the backend y of its cell phase unchanged. -/
lemma generateTableRow_docY (style : Style) (translit : String → String)
    (numToString : ℚ → String) (oracle : Nat → ℚ) (currency : Option String)
    (type : RowType) (cols : List Cell) (st0 : Storage) :
    (generateTableRow style translit numToString oracle currency type cols st0).docY =
      (generateTableRowCells style translit numToString oracle currency type cols st0).docY := by
  unfold generateTableRow
  split_ifs <;> rfl

/-- The incoming cursor y is discarded by the cell phase: the result
only depends on the rest of the storage. -/
lemma generateTableRowCells_cursor_independent (style : Style) (translit : String → String)
    (numToString : ℚ → String) (oracle : Nat → ℚ) (currency : Option String)
    (type : RowType) (cols : List Cell) (st : Storage) (a : ℚ) :
    generateTableRowCells style translit numToString oracle currency type cols
        { st with cursorY := a } =
      generateTableRowCells style translit numToString oracle currency type cols st := by
  simp only [generateTableRowCells, setCursorY]

/-- The first draw of a nonempty table row is issued at the overwritten
cursor position docY + 17, whatever cursor y was stored before. -/
lemma generateTableRow_first_event_y (style : Style) (translit : String → String)
    (numToString : ℚ → String) (oracle : Nat → ℚ) (currency : Option String)
    (type : RowType) (cols : List Cell) (st : Storage) (hne : cols ≠ []) :
    ((generateTableRow style translit numToString oracle currency type cols st).events.getD
        st.events.length default).y = st.docY + 17 := by
  obtain ⟨c, cs, rfl⟩ := List.exists_cons_of_ne_nil hne
  rw [generateTableRow_events]
  simp only [generateTableRowCells, setCursorY]
  rw [rowLoop_first_event_y]

/-- After a nonempty table row the backend y is the reported y of the
last cell drawn. -/
lemma generateTableRow_docY_last (style : Style) (translit : String → String)
    (numToString : ℚ → String) (oracle : Nat → ℚ) (currency : Option String)
    (type : RowType) (cols : List Cell) (st : Storage) (hne : cols ≠ []) :
    (generateTableRow style translit numToString oracle currency type cols st).docY =
      oracle (st.k + (cols.length - 1)) := by
  rw [generateTableRow_docY]
  simp only [generateTableRowCells, setCursorY]
  rw [rowLoop_docY _ _ _ _ _ _ _ _ _ _ hne]

/-- Claim C9: generateTableRow begins by overwriting cursor.y with the
backend document y plus 17, discarding the stored cursor y — the result
is independent of the incoming cursor y and the first cell of the row is
drawn at docY + 17 — and after the row the backend y is the reported y
of its last drawn cell, so the next row starts at that value plus 17,
not at the recorded maximum cell y of the previous row. -/
theorem c9_row_start_overwrites_cursor (style : Style) (translit : String → String)
    (numToString : ℚ → String) (oracle : Nat → ℚ) (currency : Option String)
    (type type2 : RowType) (cols cols2 : List Cell) (st : Storage) (a : ℚ)
    (hne : cols ≠ []) (hne2 : cols2 ≠ []) :
    generateTableRow style translit numToString oracle currency type cols
        { st with cursorY := a } =
      generateTableRow style translit numToString oracle currency type cols st ∧
    ((generateTableRow style translit numToString oracle currency type cols st).events.getD
        st.events.length default).y = st.docY + 17 ∧
    (generateTableRow style translit numToString oracle currency type cols st).docY =
      oracle (st.k + (cols.length - 1)) ∧
    ((generateTableRow style translit numToString oracle currency type2 cols2
          (generateTableRow style translit numToString oracle currency type cols st)).events.getD
        (generateTableRow style translit numToString oracle currency type cols st).events.length
          default).y =
      oracle (st.k + (cols.length - 1)) + 17 := by
  refine ⟨?_, generateTableRow_first_event_y style translit numToString oracle currency
      type cols st hne,
    generateTableRow_docY_last style translit numToString oracle currency type cols st hne, ?_⟩
  · unfold generateTableRow
    rw [generateTableRowCells_cursor_independent]
  · rw [generateTableRow_first_event_y style translit numToString oracle currency type2 cols2
      (generateTableRow style translit numToString oracle currency type cols st) hne2,
      generateTableRow_docY_last style translit numToString oracle currency type cols st hne]

/-- Witness for C9: two nonempty rows over a constant-100 oracle; the
stored cursor y 5 of the first call is discarded. -/
theorem c9_row_start_overwrites_cursor_witness :
    (([⟨JsValue.str "a", false⟩] : List Cell) ≠ []) ∧
    (([⟨JsValue.str "b", false⟩] : List Cell) ≠ []) ∧
    (generateTableRow defaultStyle id (fun _ => "") (fun _ => (100 : ℚ)) none RowType.row
        [⟨JsValue.str "a", false⟩] { initialStorage with cursorY := 5 } =
      generateTableRow defaultStyle id (fun _ => "") (fun _ => (100 : ℚ)) none RowType.row
        [⟨JsValue.str "a", false⟩] initialStorage ∧
    ((generateTableRow defaultStyle id (fun _ => "") (fun _ => (100 : ℚ)) none RowType.row
        [⟨JsValue.str "a", false⟩] initialStorage).events.getD
        initialStorage.events.length default).y = initialStorage.docY + 17 ∧
    (generateTableRow defaultStyle id (fun _ => "") (fun _ => (100 : ℚ)) none RowType.row
        [⟨JsValue.str "a", false⟩] initialStorage).docY =
      (fun _ => (100 : ℚ)) (initialStorage.k +
        (([⟨JsValue.str "a", false⟩] : List Cell).length - 1)) ∧
    ((generateTableRow defaultStyle id (fun _ => "") (fun _ => (100 : ℚ)) none RowType.header
          [⟨JsValue.str "b", false⟩]
          (generateTableRow defaultStyle id (fun _ => "") (fun _ => (100 : ℚ)) none RowType.row
            [⟨JsValue.str "a", false⟩] initialStorage)).events.getD
        (generateTableRow defaultStyle id (fun _ => "") (fun _ => (100 : ℚ)) none RowType.row
          [⟨JsValue.str "a", false⟩] initialStorage).events.length default).y =
      (fun _ => (100 : ℚ)) (initialStorage.k +
        (([⟨JsValue.str "a", false⟩] : List Cell).length - 1)) + 17) :=
  ⟨by decide, by decide,
    c9_row_start_overwrites_cursor defaultStyle id (fun _ => "") (fun _ => (100 : ℚ)) none
      RowType.row RowType.header [⟨JsValue.str "a", false⟩] [⟨JsValue.str "b", false⟩]
      initialStorage 5 (by decide) (by decide)⟩

end SimpleInvoicePDF
